import Mathlib

/-!
A shallow embedding of the core of the `ambariclient` library
(`ambariclient/base.py`, `ambariclient/events.py`, `ambariclient/models.py`)
and proofs about the claims of its specification.

Conventions of the embedding:
* Python dictionaries become association lists (`List (String × JVal)`),
  with lookup returning the first binding and update replacing in place
  (preserving insertion order, as CPython dicts do).
* The HTTP gateway (`client.get`) becomes an oracle
  `fetch : Nat → String → Except FetchErr (List (String × JVal))` taking the
  number of gateway calls made so far and the URL; every embedded operation
  threads an explicit gateway-call counter so that claims about the number
  of HTTP requests are statable.
* Raised exceptions become `Except` errors carrying the post-mutation state
  (Python exceptions propagate after the object was mutated in place).
* Wall-clock time in the poll loop advances only at `time.sleep(interval)`,
  by exactly `interval` seconds; the loop is given explicit fuel since a
  zero interval would not terminate.
-/

/-- JSON-like values appearing in parsed response bodies and attribute bags. -/
inductive JVal where
  | str (s : String)
  | num (n : Int)
  | obj (o : List (String × JVal))
  | arr (a : List JVal)

/-- A parsed response body / attribute bag: an insertion-ordered dictionary. -/
abbrev JObj := List (String × JVal)

/-- Dictionary lookup (`d[k]` / `k in d`). -/
def dictGet (d : JObj) (k : String) : Option JVal :=
  (d.find? (fun p => p.1 == k)).map (fun p => p.2)

/-- Dictionary single-key update: replace in place, else append (CPython order). -/
def dictSet (d : JObj) (k : String) (v : JVal) : JObj :=
  match d with
  | [] => [(k, v)]
  | (k0, v0) :: rest => if k0 == k then (k0, v) :: rest else (k0, v0) :: dictSet rest k v

/-- `d.update(new)`: fold the new bindings into `d` one by one. -/
def dictUpdate (d new : JObj) : JObj :=
  new.foldl (fun acc p => dictSet acc p.1 p.2) d

/-- `d.pop(k)` restricted to the leftover dictionary. -/
def dictDrop (d : JObj) (k : String) : JObj :=
  d.filter (fun p => p.1 ≠ k)

/-- Python `str()` of a primitive response value (only strings and numbers
occur at primary-key positions in practice). -/
def pyStr : JVal → String
  | JVal.str s => s
  | JVal.num n => toString n
  | JVal.obj _ => "object"
  | JVal.arr _ => "array"

/-! ### events.py -/

/-- `state_list = ['ANY', 'STARTED', 'FAILED', 'FINISHED', 'PROGRESS']`. -/
def state_list : List String := ["ANY", "STARTED", "FAILED", "FINISHED", "PROGRESS"]

/-- The `states` namedtuple of `events.py`. -/
structure EventStates where
  ANY : String
  STARTED : String
  FAILED : String
  FINISHED : String
  PROGRESS : String

/-- `states = namedtuple('EventStates', state_list)(*state_list)`. -/
def states : EventStates :=
  { ANY := "ANY", STARTED := "STARTED", FAILED := "FAILED"
  , FINISHED := "FINISHED", PROGRESS := "PROGRESS" }

/-- `EVENT_HANDLERS`: the process-wide registry, a dictionary from the
joined key string to the ordered list of callbacks (callbacks are opaque,
represented by numeric ids). -/
abbrev Registry := List (String × List Nat)

/-- Registry lookup (`key in EVENT_HANDLERS` / `EVENT_HANDLERS[key]`). -/
def handlersGet (reg : Registry) (k : String) : Option (List Nat) :=
  (reg.find? (fun p => p.1 == k)).map (fun p => p.2)

/-- `'.'.join([cls, event, event_state])`. -/
def mkKey (cls event st : String) : String :=
  String.intercalate "." [cls, event, st]

/-- `events.subscribe(obj, event, callback, event_state=None)`:
append the callback to the list under the exact key, defaulting the
state to `ANY`. -/
def subscribe (reg : Registry) (cls event : String) (cb : Nat)
    (event_state : Option String) : Registry :=
  let st := match event_state with
    | none => states.ANY
    | some s => s
  let event_key := mkKey cls event st
  match handlersGet reg event_key with
  | none => reg ++ [(event_key, [cb])]
  | some _ => reg.map (fun p => if p.1 == event_key then (p.1, p.2 ++ [cb]) else p)

/-- The `for cls in potential` loop of `events.publish`: returns the
`callbacks` found by an exact match (empty if the loop ran out) together
with the `fallbacks` variable at loop exit. -/
def publishScan (reg : Registry) (event st : String) :
    List String → Option (List Nat) → List Nat × Option (List Nat)
  | [], fb => ([], fb)
  | cls :: rest, fb =>
    let event_key := mkKey cls event st
    let backup_key := mkKey cls event states.ANY
    match handlersGet reg event_key with
    | some cbs => (cbs, fb)
    | none =>
      let fb1 := match fb with
        | some f => some f
        | none => handlersGet reg backup_key
      publishScan reg event st rest fb1

/-- `events.publish(obj, event, event_state)`: `potential` is the list of
class names of the publisher's MRO, most specific first.  Returns the list
of callbacks fired, in order.  Mirrors the short-circuit on an empty
registry and the final `if fallbacks is not None: callbacks = fallbacks`. -/
def publish (reg : Registry) (potential : List String) (event st : String) : List Nat :=
  if reg.length = 0 then []
  else
    let scan := publishScan reg event st potential none
    match scan.2 with
    | some f => f
    | none => scan.1

/-- `events.evented(method)`: the wrapper publishes `STARTED`, runs the
body, publishes `FAILED` and re-raises if it raised, and publishes
`FINISHED` unconditionally (`finally`).  The body is represented by the
events it publishes itself together with its outcome. -/
def evented {ε α : Type} (name : String) (body : List (String × String) × Except ε α) :
    List (String × String) × Except ε α :=
  let btrace := body.1
  match body.2 with
  | Except.ok a =>
    ((name, states.STARTED) :: btrace ++ [(name, states.FINISHED)], Except.ok a)
  | Except.error e =>
    ((name, states.STARTED) :: btrace
       ++ [(name, states.FAILED), (name, states.FINISHED)], Except.error e)

/-! ### PollableMixin (base.py lines 26-67) -/

/-- Outcome of the `PollableMixin.wait` poll loop: `failed n` models
`exceptions.Failed` raised at refresh count `n` (carrying the entity),
`finished n` models returning the entity, `timeout t` models
`exceptions.Timeout(t, ...)`. -/
inductive WaitResult where
  | failed (n : Nat)
  | finished (n : Nat)
  | timeout (t : Nat)
deriving DecidableEq

/-- The `while datetime.utcnow() < end` loop of `PollableMixin.wait`.
`hf`/`isf` give `has_failed`/`is_finished` as functions of the number of
refreshes performed so far; `now` is the elapsed time (starting at 0, so
the deadline `end` equals the resolved `tmo`); each `else` branch
publishes a PROGRESS event, sleeps `interval` seconds and refreshes,
which is modelled by `now + interval` and `n + 1`.  `fuel` bounds the
number of iterations; `none` means the fuel ran out. -/
def waitLoop (hf isf : Nat → Bool) (interval tmo : Nat) :
    Nat → Nat → Nat → Option WaitResult
  | 0, now, n =>
    if now < tmo then
      if hf n then some (WaitResult.failed n)
      else if isf n then some (WaitResult.finished n)
      else none
    else some (WaitResult.timeout tmo)
  | Nat.succ fuel, now, n =>
    if now < tmo then
      if hf n then some (WaitResult.failed n)
      else if isf n then some (WaitResult.finished n)
      else waitLoop hf isf interval tmo fuel (now + interval) (n + 1)
    else some (WaitResult.timeout tmo)

/-- `if not arg: arg = default` — Python treats both `None` and `0` as
falsy, so an explicit 0 is replaced by the configured default. -/
def resolveDefault (arg : Option Nat) (dflt : Nat) : Nat :=
  match arg with
  | none => dflt
  | some v => if v = 0 then dflt else v

/-- `PollableMixin.default_interval`. -/
def PollableMixin.default_interval : Nat := 15

/-- `PollableMixin.default_timeout`. -/
def PollableMixin.default_timeout : Nat := 3600

/-- `PollableMixin.wait(interval=None, timeout=None)`: resolve the
arguments against the subclass defaults and run the poll loop. -/
def PollableMixin.wait (hf isf : Nat → Bool) (default_interval default_timeout : Nat)
    (interval timeout : Option Nat) (fuel : Nat) : Option WaitResult :=
  waitLoop hf isf (resolveDefault interval default_interval)
    (resolveDefault timeout default_timeout) fuel 0 0

/-! ### QueryableModel (base.py lines 345-667) -/

/-- Errors raised by the transport when fetching a URL
(`exceptions.NotFound` and the other HTTP error classes). -/
inductive FetchErr where
  | notFound
  | httpError
deriving DecidableEq

/-- Python exceptions observable in the embedded operations.
`insufficientData` is the `exceptions.ClientError` raised by the
re-entrancy guard in `QueryableModel.inflate` (the spec's
`InsufficientAddressError`); `noUrl` is the `exceptions.ClientError`
raised by the `url` property when the identifier is missing or falsy;
`failed`/`timeout` model `exceptions.Failed`/`exceptions.Timeout`. -/
inductive PyErr where
  | insufficientData
  | noUrl
  | notFound
  | httpError
  | attributeError
  | keyError
  | valueError
  | failed (n : Nat)
  | timeout (t : Nat)
deriving DecidableEq

/-- Lift a transport error into the exception it surfaces as. -/
def FetchErr.toPyErr : FetchErr → PyErr
  | FetchErr.notFound => PyErr.notFound
  | FetchErr.httpError => PyErr.httpError

/-- The gateway oracle: given the number of gateway calls made so far and
a URL, produce the parsed response body or a transport error. -/
abbrev Fetch := Nat → String → Except FetchErr JObj

/-- The state of one `QueryableModel` instance, together with the class
attributes of its model class (`primary_key`, `data_key`, `fields`,
`relationships`) and its parent collection's URL. -/
structure QModel where
  href : Option String
  primary_key : Option String
  data_key : Option String
  fields : List String
  relationships : List String
  parentUrl : String
  data : JObj
  relCache : List String
  request : Option JObj
  is_inflated : Bool
  is_inflating : Bool

/-- The `url` property of `QueryableModel`, as evaluated from inside
`inflate` (i.e. with `_is_inflating` already `True`): use `_href` if set,
otherwise derive `parent.url + '/' + identifier`.  Reading `identifier`
when the primary key is absent from the bag recursively calls `inflate`,
which — being re-entrant at this point — raises the guard's
`ClientError` (`insufficientData`).  A `None` or empty identifier makes
the property raise `ClientError("Not able to determine object URL")`
(`noUrl`). -/
def QueryableModel.urlOf (s : QModel) : Except PyErr String :=
  match s.href with
  | some h => Except.ok h
  | none =>
    match s.primary_key with
    | none => Except.error PyErr.noUrl
    | some pk =>
      match dictGet s.data pk with
      | some v =>
        if pyStr v = "" then Except.error PyErr.noUrl
        else Except.ok (s.parentUrl ++ "/" ++ pyStr v)
      | none => Except.error PyErr.insufficientData

/-- `QueryableModel.load(response)`: a `Requests` section (when it is not
this model's own `data_key`) becomes the async-job reference; otherwise
`href` is popped into `_href`, the `data_key` sub-dictionary is merged
into the attribute bag and any relationship collections present in the
remaining response are pre-cached (we record only the cached names); with
no `data_key` the whole remaining response is merged. -/
def QueryableModel.load (s : QModel) (resp : JObj) : QModel :=
  if (dictGet resp "Requests").isSome && s.data_key ≠ some "Requests" then
    match dictGet resp "Requests" with
    | some (JVal.obj reqData) => { s with request := some reqData }
    | _ => { s with request := some [] }
  else
    let s1 := match dictGet resp "href" with
      | some hv => { s with href := some (pyStr hv) }
      | none => s
    let respNoHref := dictDrop resp "href"
    match s.data_key with
    | some dk =>
      match dictGet respNoHref dk with
      | some (JVal.obj body) =>
        let respRest := dictDrop respNoHref dk
        let s2 := { s1 with data := dictUpdate s1.data body }
        { s2 with relCache := s2.relCache
            ++ (s2.relationships.filter
                 (fun r => (dictGet respRest r).isSome && !(s2.relCache.contains r))) }
      | _ => s1
    | none => { s1 with data := dictUpdate s1.data respNoHref }

/-- `QueryableModel.inflate()`: no-op if inflated; the re-entrancy guard
raises `ClientError` if an inflation is already in flight; otherwise mark
inflating, GET the model's URL, `load` the response and mark inflated.
Errors carry the post-mutation state and call counter (a raised exception
does not reset `_is_inflating`). -/
def QueryableModel.inflate (fetch : Fetch) (s : QModel) (calls : Nat) :
    Except (PyErr × QModel × Nat) (QModel × Nat) :=
  if s.is_inflated then Except.ok (s, calls)
  else if s.is_inflating then Except.error (PyErr.insufficientData, s, calls)
  else
    let s1 := { s with is_inflating := true }
    match QueryableModel.urlOf s1 with
    | Except.error e => Except.error (e, s1, calls)
    | Except.ok u =>
      match fetch calls u with
      | Except.error fe => Except.error (fe.toPyErr, s1, calls + 1)
      | Except.ok resp =>
        let s2 := QueryableModel.load s1 resp
        Except.ok ({ s2 with is_inflated := true, is_inflating := false }, calls + 1)

/-- `Model.refresh()`: reset `_is_inflated` and inflate. -/
def Model.refresh (fetch : Fetch) (s : QModel) (calls : Nat) :
    Except (PyErr × QModel × Nat) (QModel × Nat) :=
  QueryableModel.inflate fetch { s with is_inflated := false } calls

/-- The value produced by attribute access on a model: a field value from
the attribute bag, or the (cached) relationship collection. -/
inductive AttrVal where
  | field (v : Option JVal)
  | relation (name : String)

/-- `Model.__getattr__(attr)`: relationships inflate and return the cached
child collection (constructing and caching it on first access); declared
fields inflate only when the value is absent from the bag and then read
the bag; anything else raises `AttributeError`. -/
def Model.getattr (fetch : Fetch) (s : QModel) (calls : Nat) (attr : String) :
    Except (PyErr × QModel × Nat) (AttrVal × QModel × Nat) :=
  if attr ∈ s.relationships then
    match QueryableModel.inflate fetch s calls with
    | Except.error e => Except.error e
    | Except.ok (s1, c1) =>
      let s2 := if attr ∈ s1.relCache then s1
                else { s1 with relCache := s1.relCache ++ [attr] }
      Except.ok (AttrVal.relation attr, s2, c1)
  else if attr ∈ s.fields then
    if (dictGet s.data attr).isNone then
      match QueryableModel.inflate fetch s calls with
      | Except.error e => Except.error e
      | Except.ok (s1, c1) => Except.ok (AttrVal.field (dictGet s1.data attr), s1, c1)
    else Except.ok (AttrVal.field (dictGet s.data attr), s, calls)
  else Except.error (PyErr.attributeError, s, calls)

/-- Observable steps taken by the `wait` methods, in order: waiting on the
linked async request, calling `inflate`, and entering the poll loop. -/
inductive Act where
  | requestWait (r : JObj)
  | inflateCall
  | poll

/-- The outcome of `request.wait(**kwargs)` on the linked job, as an
oracle from the stored request payload (`none` = completed normally). -/
abbrev ReqWait := JObj → Option PyErr

/-- `QueryableModel.wait(**kwargs)`: if an async request is pending, wait
on it and clear the reference, then inflate. -/
def QueryableModel.wait (reqWait : ReqWait) (fetch : Fetch) (s : QModel) (calls : Nat) :
    Except (PyErr × QModel × Nat) (List Act × QModel × Nat) :=
  match s.request with
  | some r =>
    match reqWait r with
    | some e => Except.error (e, s, calls)
    | none =>
      let s1 := { s with request := none }
      match QueryableModel.inflate fetch s1 calls with
      | Except.error e => Except.error e
      | Except.ok (s2, c2) => Except.ok ([Act.requestWait r, Act.inflateCall], s2, c2)
  | none =>
    match QueryableModel.inflate fetch s calls with
    | Except.error e => Except.error e
    | Except.ok (s2, c2) => Except.ok ([Act.inflateCall], s2, c2)

/-! ### QueryableModelCollection (base.py lines 158-292) -/

/-- State of a `QueryableModelCollection`, with the class attributes of
its model class needed to construct members. -/
structure QCollection where
  base_url : String
  parentUrl : Option String
  path : String
  modelPk : String
  modelDataKey : Option String
  modelFields : List String
  modelRelationships : List String
  models : List QModel
  request : Option JObj
  is_inflated : Bool

/-- The `url` property of `QueryableModelCollection`:
`'/'.join([client.base_url, 'api', 'v1', path])` for a top-level
collection, `'/'.join([parent.url, path])` otherwise. -/
def QueryableModelCollection.url (c : QCollection) : String :=
  match c.parentUrl with
  | none => String.intercalate "/" [c.base_url, "api", "v1", c.path]
  | some pu => String.intercalate "/" [pu, c.path]

/-- A fresh member model of this collection (`self.model_class(self, ...)`). -/
def QueryableModelCollection.newModel (c : QCollection) (href : Option String)
    (data : JObj) : QModel :=
  { href := href
  , primary_key := some c.modelPk
  , data_key := c.modelDataKey
  , fields := c.modelFields
  , relationships := c.modelRelationships
  , parentUrl := QueryableModelCollection.url c
  , data := data
  , relCache := []
  , request := none
  , is_inflated := false
  , is_inflating := false }

/-- The single-non-list-argument branch of
`QueryableModelCollection.__call__`: a shallow deflated model addressed
by `'/'.join([self.url, identifier])` whose bag is exactly
`{primary_key: identifier}` (`ident` is already the `str()` form). -/
def QueryableModelCollection.callOne (c : QCollection) (ident : String) : QModel :=
  QueryableModelCollection.newModel c
    (some (QueryableModelCollection.url c ++ "/" ++ ident))
    [(c.modelPk, JVal.str ident)]

/-- One element of the argument list handed to a collection call: either
a preloaded response fragment (a dict) or a bare identifier. -/
inductive CallItem where
  | fromDict (item : JObj)
  | fromId (v : String)

/-- The arguments of `QueryableModelCollection.__call__`: one single
non-list argument (taken through `str()`), or a list of items (either a
single list argument or several positional arguments). -/
inductive CallArg where
  | single (v : String)
  | items (xs : List CallItem)

/-- Instantiate one member model from a call item: dicts need an `href`
key (`item['href']` raises `KeyError` otherwise) and are absorbed via
`load`; bare identifiers give deflated models with a derived address. -/
def QueryableModelCollection.itemModel (c : QCollection) :
    CallItem → Except PyErr QModel
  | CallItem.fromDict item =>
    match dictGet item "href" with
    | none => Except.error PyErr.keyError
    | some hv =>
      Except.ok (QueryableModel.load
        (QueryableModelCollection.newModel c (some (pyStr hv)) []) item)
  | CallItem.fromId v =>
    Except.ok (QueryableModelCollection.newModel c
      (some (QueryableModelCollection.url c ++ "/" ++ v))
      [(c.modelPk, JVal.str v)])

/-- `QueryableModelCollection.__call__(*args)`: a single non-list argument
returns a shallow member without touching the gateway; a non-empty item
list replaces the membership and marks the collection inflated; an empty
item list leaves the collection as is.  The gateway-call counter is
threaded unchanged: this method performs no gateway call. -/
def QueryableModelCollection.call (c : QCollection) (arg : CallArg) (calls : Nat) :
    Except PyErr ((QModel ⊕ QCollection) × Nat) :=
  match arg with
  | CallArg.single v => Except.ok (Sum.inl (QueryableModelCollection.callOne c v), calls)
  | CallArg.items xs =>
    if 0 < xs.length then
      match xs.mapM (QueryableModelCollection.itemModel c) with
      | Except.error e => Except.error e
      | Except.ok ms =>
        Except.ok (Sum.inr { c with models := ms, is_inflated := true }, calls)
    else Except.ok (Sum.inr c, calls)

/-- `QueryableModelCollection.load(response)`: a `Requests` section
becomes the collection's async-job reference; an `items` list rebuilds
the membership, loading each fragment into a fresh member model
(fragments that are not dictionaries cannot occur in well-formed
responses and are skipped). -/
def QueryableModelCollection.load (c : QCollection) (resp : JObj) : QCollection :=
  let c1 := match dictGet resp "Requests" with
    | some (JVal.obj reqData) => { c with request := some reqData }
    | some _ => { c with request := some [] }
    | none => c
  match dictGet resp "items" with
  | some (JVal.arr its) =>
    { c1 with models := its.filterMap (fun it =>
        match it with
        | JVal.obj item =>
          some (QueryableModel.load
            (QueryableModelCollection.newModel c1
              ((dictGet item "href").map pyStr) []) item)
        | _ => none) }
  | _ => c1

/-- `QueryableModelCollection.inflate()`: GET the collection URL and load
the response when not yet inflated; always mark inflated. -/
def QueryableModelCollection.inflate (fetch : Fetch) (c : QCollection) (calls : Nat) :
    Except (PyErr × QCollection × Nat) (QCollection × Nat) :=
  if c.is_inflated then Except.ok ({ c with is_inflated := true }, calls)
  else
    match fetch calls (QueryableModelCollection.url c) with
    | Except.error fe => Except.error (fe.toPyErr, c, calls + 1)
    | Except.ok resp =>
      Except.ok ({ QueryableModelCollection.load c resp with is_inflated := true },
        calls + 1)

/-- `QueryableModelCollection.wait(**kwargs)`: wait on a pending async
request and clear the reference, then inflate. -/
def QueryableModelCollection.wait (reqWait : ReqWait) (fetch : Fetch)
    (c : QCollection) (calls : Nat) :
    Except (PyErr × QCollection × Nat) (List Act × QCollection × Nat) :=
  match c.request with
  | some r =>
    match reqWait r with
    | some e => Except.error (e, c, calls)
    | none =>
      let c1 := { c with request := none }
      match QueryableModelCollection.inflate fetch c1 calls with
      | Except.error e => Except.error e
      | Except.ok (c2, n2) => Except.ok ([Act.requestWait r, Act.inflateCall], c2, n2)
  | none =>
    match QueryableModelCollection.inflate fetch c calls with
    | Except.error e => Except.error e
    | Except.ok (c2, n2) => Except.ok ([Act.inflateCall], c2, n2)

/-! ### Host (models.py lines 451-505) -/

/-- `Host.default_interval`. -/
def Host.default_interval : Nat := 5

/-- `Host.default_timeout`. -/
def Host.default_timeout : Nat := 180

/-- The `for x in range(1, 7)` retry loop of `Host.wait`: try to inflate;
on `exceptions.NotFound` re-raise if this was attempt 6, otherwise reset
`_is_inflating`, sleep and retry.  The argument counts the remaining
attempts (6 at entry, so "remaining = 1" is attempt `x == 6`); after a
successful inflation the loop still runs out its attempts, which are
no-ops on an inflated model. -/
def Host.inflateRetry (fetch : Fetch) :
    Nat → QModel → Nat → Except (PyErr × QModel × Nat) (QModel × Nat)
  | 0, s, calls => Except.ok (s, calls)
  | Nat.succ k, s, calls =>
    match QueryableModel.inflate fetch s calls with
    | Except.ok (s1, c1) => Host.inflateRetry fetch k s1 c1
    | Except.error (PyErr.notFound, s1, c1) =>
      if k = 0 then Except.error (PyErr.notFound, s1, c1)
      else Host.inflateRetry fetch k { s1 with is_inflating := false } c1
    | Except.error e => Except.error e

/-- `Host.wait(**kwargs)`: wait on a pending async request (without
clearing the reference — unlike `QueryableModel.wait`), run the
not-found-tolerant inflation retry loop, then enter the
`PollableMixin.wait` poll loop (`super(Host, self).wait`).  `Host.has_failed`
is always `False`, so the failure predicate is hard-wired; `isf` gives
`Host.is_finished` as a function of the number of poll refreshes.  The
returned state reflects the retry phase; `Except.ok none` means the poll
loop ran out of fuel. -/
def Host.wait (reqWait : ReqWait) (fetch : Fetch) (isf : Nat → Bool)
    (interval timeout : Option Nat) (fuel : Nat) (s : QModel) (calls : Nat) :
    Except (PyErr × QModel × Nat) (Option (List Act × WaitResult × QModel × Nat)) :=
  let pre : List Act := match s.request with
    | some r => [Act.requestWait r]
    | none => []
  let rest : QModel → Except (PyErr × QModel × Nat)
      (Option (List Act × WaitResult × QModel × Nat)) := fun s0 =>
    match Host.inflateRetry fetch 6 s0 calls with
    | Except.error e => Except.error e
    | Except.ok (s1, c1) =>
      match waitLoop (fun _ => false) isf
          (resolveDefault interval Host.default_interval)
          (resolveDefault timeout Host.default_timeout) fuel 0 0 with
      | none => Except.ok none
      | some (WaitResult.finished k) =>
        Except.ok (some (pre ++ [Act.inflateCall, Act.poll], WaitResult.finished k, s1, c1))
      | some (WaitResult.failed k) => Except.error (PyErr.failed k, s1, c1)
      | some (WaitResult.timeout t) => Except.error (PyErr.timeout t, s1, c1)
  match s.request with
  | some r =>
    match reqWait r with
    | some e => Except.error (e, s, calls)
    | none => rest s
  | none => rest s

/-! ### DependentModel / DependentModelCollection (base.py lines 295-342, 481-494) -/

/-- State of a `DependentModel`. -/
structure DModel where
  primary_key : Option String
  data : JObj
  is_inflated : Bool

/-- What reading `identifier` on a dependent model does: `primary_key` of
`None` gives Python `None`; a missing key first runs the no-op
`DependentModel.inflate` and then raises `KeyError` on `_data[pk]`. -/
inductive IdentRes where
  | val (v : Option String)
  | keyError
deriving DecidableEq

/-- `Model.identifier` specialised to `DependentModel`. -/
def DependentModel.identifier (m : DModel) : IdentRes :=
  match m.primary_key with
  | none => IdentRes.val none
  | some pk =>
    match dictGet m.data pk with
    | some v => IdentRes.val (some (pyStr v))
    | none => IdentRes.keyError

/-- State of a `DependentModelCollection`. -/
structure DCollection where
  models : List DModel
  is_inflated : Bool

/-- `DependentModelCollection.inflate()`: mark ready; no gateway call
(the counter is returned unchanged). -/
def DependentModelCollection.inflate (c : DCollection) (calls : Nat) :
    DCollection × Nat :=
  ({ c with is_inflated := true }, calls)

/-- The single-scalar branch of `DependentModelCollection.__call__`:
filter the membership by `x.identifier == args[0]` (a `KeyError` from any
member's identifier read aborts the comprehension); one match returns it,
more than one raises `ValueError`, none returns Python `None`. -/
def DependentModelCollection.call1 (c : DCollection) (v : String) :
    Except PyErr (Option DModel) :=
  if c.models.any (fun m => decide (DependentModel.identifier m = IdentRes.keyError)) then
    Except.error PyErr.keyError
  else
    let found := c.models.filter
      (fun m => decide (DependentModel.identifier m = IdentRes.val (some v)))
    if found.length = 1 then Except.ok found.head?
    else if 1 < found.length then Except.error PyErr.valueError
    else Except.ok none

/-! ### Concrete instances used in counterexamples and witnesses -/

/-- A registry with an exact `(B, x, FINISHED)` registration (callback 1)
and a default-state `(S, x, ANY)` registration (callback 2), where `S` is
a subtype of `B`. -/
def demoReg : Registry :=
  subscribe (subscribe [] "B" "x" 1 (some "FINISHED")) "S" "x" 2 none

/-- A `Host` model with a pending async-job reference. -/
def hostEx : QModel :=
  { href := some "http://ambari:8080/api/v1/hosts/h1"
  , primary_key := some "host_name"
  , data_key := some "Hosts"
  , fields := ["host_name", "host_status", "maintenance_state"]
  , relationships := []
  , parentUrl := "http://ambari:8080/api/v1/hosts"
  , data := [("host_name", JVal.str "h1")]
  , relCache := []
  , request := some [("id", JVal.num 1)]
  , is_inflated := false
  , is_inflating := false }

/-- A gateway oracle always answering with a plain host body. -/
def okFetch : Fetch :=
  fun _ _ => Except.ok [("Hosts", JVal.obj [("host_name", JVal.str "h1")])]

/-- An inflated model with one field value present, for witnesses. -/
def modelEx : QModel :=
  { href := some "http://ambari:8080/api/v1/clusters/c1"
  , primary_key := some "cluster_name"
  , data_key := some "Clusters"
  , fields := ["cluster_name", "health_report", "version"]
  , relationships := ["hosts"]
  , parentUrl := "http://ambari:8080/api/v1/clusters"
  , data := [("cluster_name", JVal.str "c1")]
  , relCache := []
  , request := none
  , is_inflated := false
  , is_inflating := false }

/-- A dependent model with identifier `"a"`. -/
def depA : DModel :=
  { primary_key := some "name", data := [("name", JVal.str "a")], is_inflated := false }

/-- A dependent model with identifier `"b"`. -/
def depB : DModel :=
  { primary_key := some "name", data := [("name", JVal.str "b")], is_inflated := false }

/-- A dependent collection with an ambiguous pair of `"a"` members. -/
def depColl : DCollection :=
  { models := [depA, depA, depB], is_inflated := false }

/-- A model with neither a direct address nor a primary-key value, on
which inflation must hit the re-entrancy guard. -/
def guardEx : QModel :=
  { modelEx with href := none, data := [] }

/-! ## Theorems -/

/-- C10: calling `wait()` with an explicit `interval` or `timeout` equal
to 0 (falsy in Python) behaves exactly as if the argument were omitted:
the configured `default_interval` / `default_timeout` is used instead, so
a zero poll interval or zero deadline cannot be requested through
`wait()`. -/
theorem C10_zero_arguments_use_defaults (hf isf : Nat → Bool)
    (default_interval default_timeout : Nat) (interval timeout : Option Nat)
    (fuel : Nat) :
    PollableMixin.wait hf isf default_interval default_timeout (some 0) timeout fuel
      = PollableMixin.wait hf isf default_interval default_timeout none timeout fuel ∧
    PollableMixin.wait hf isf default_interval default_timeout interval (some 0) fuel
      = PollableMixin.wait hf isf default_interval default_timeout interval none fuel := by
  constructor <;> rfl

/-- C8: calling an addressable collection with a single non-sequence
argument issues no gateway call and returns a newly constructed shallow
model whose address is the collection's address with `/` and the string
form of the argument appended, and whose attribute bag is exactly the
primary key mapped to that string. -/
theorem C8_collection_scalar_call (c : QCollection) (v : String) (calls : Nat) :
    QueryableModelCollection.call c (CallArg.single v) calls
      = Except.ok (Sum.inl (QueryableModelCollection.callOne c v), calls) ∧
    (QueryableModelCollection.callOne c v).href
      = some (QueryableModelCollection.url c ++ "/" ++ v) ∧
    (QueryableModelCollection.callOne c v).data = [(c.modelPk, JVal.str v)] ∧
    (QueryableModelCollection.callOne c v).is_inflated = false ∧
    (QueryableModelCollection.callOne c v).is_inflating = false ∧
    (QueryableModelCollection.callOne c v).request = none ∧
    QueryableModel.urlOf (QueryableModelCollection.callOne c v)
      = Except.ok (QueryableModelCollection.url c ++ "/" ++ v) := by
  exact ⟨rfl, rfl, rfl, rfl, rfl, rfl, rfl⟩

/-- C2 (counter-evidence): with an exact `(B, x, FINISHED)` registration
(callback 1) on the base type and an ANY-state `(S, x, ANY)` registration
(callback 2) on the subtype, publishing `(x, FINISHED)` from an instance
of `S` (MRO `[S, B]`) fires the subtype's ANY callbacks `[2]` — the
`fallbacks` found at the more specific class override the exact match the
loop found and broke on — although the claim (and the docstring of
`publish`) requires the exact registration `[1]` to fire. -/
theorem C2_fallback_overrides_exact_match :
    handlersGet demoReg (mkKey "B" "x" states.FINISHED) = some [1] ∧
    publish demoReg ["S", "B"] "x" states.FINISHED = [2] := by
  exact ⟨rfl, rfl⟩

/-- C6: the `evented` wrapper publishes `STARTED` before the wrapped body
executes; if the body raises, `FAILED` is published and the exception is
re-raised; `FINISHED` is published unconditionally on exit — on an
erroring call the trace is STARTED, body, FAILED, FINISHED (FAILED before
FINISHED) and on a successful call it is STARTED, body, FINISHED. -/
theorem C6_evented_wrapper {ε α : Type} (name : String)
    (btrace : List (String × String)) (r : Except ε α) :
    (evented name (btrace, r)).2 = r ∧
    (evented name (btrace, r)).1.head? = some (name, states.STARTED) ∧
    (∀ e : ε, r = Except.error e →
      (evented name (btrace, r)).1
        = (name, states.STARTED) :: btrace
            ++ [(name, states.FAILED), (name, states.FINISHED)]) ∧
    (∀ a : α, r = Except.ok a →
      (evented name (btrace, r)).1
        = (name, states.STARTED) :: btrace ++ [(name, states.FINISHED)]) := by
  cases r <;> simp [evented]

/-- Witness for C6 at a concrete erroring body. -/
theorem C6_evented_wrapper_witness :
    ((evented "delete" ([("Model.load", "STARTED")],
        (Except.error 3 : Except Nat Nat))).2 = Except.error 3 ∧
    (evented "delete" ([("Model.load", "STARTED")],
        (Except.error 3 : Except Nat Nat))).1.head? = some ("delete", states.STARTED) ∧
    (∀ e : Nat, (Except.error 3 : Except Nat Nat) = Except.error e →
      (evented "delete" ([("Model.load", "STARTED")],
          (Except.error 3 : Except Nat Nat))).1
        = ("delete", states.STARTED) :: [("Model.load", "STARTED")]
            ++ [("delete", states.FAILED), ("delete", states.FINISHED)]) ∧
    (∀ a : Nat, (Except.error 3 : Except Nat Nat) = Except.ok a →
      (evented "delete" ([("Model.load", "STARTED")],
          (Except.error 3 : Except Nat Nat))).1
        = ("delete", states.STARTED) :: [("Model.load", "STARTED")]
            ++ [("delete", states.FINISHED)])) :=
  C6_evented_wrapper "delete" [("Model.load", "STARTED")] (Except.error 3)

/-- C9: a dependent collection never issues a gateway call and its
`inflate()` only marks it ready; calling it with a single scalar searches
the membership by identifier — the unique match is returned, no match
gives Python `None`, and an ambiguous match raises the validation error
(`ValueError`). -/
theorem C9_dependent_collection_lookup (c : DCollection) (v : String) (calls : Nat)
    (hok : ∀ m ∈ c.models, DependentModel.identifier m ≠ IdentRes.keyError) :
    DependentModelCollection.inflate c calls = ({ c with is_inflated := true }, calls) ∧
    ((c.models.filter
        (fun m => decide (DependentModel.identifier m = IdentRes.val (some v)))).length = 1 →
      DependentModelCollection.call1 c v = Except.ok
        (c.models.filter
          (fun m => decide (DependentModel.identifier m = IdentRes.val (some v)))).head?) ∧
    ((c.models.filter
        (fun m => decide (DependentModel.identifier m = IdentRes.val (some v)))).length = 0 →
      DependentModelCollection.call1 c v = Except.ok none) ∧
    (1 < (c.models.filter
        (fun m => decide (DependentModel.identifier m = IdentRes.val (some v)))).length →
      DependentModelCollection.call1 c v = Except.error PyErr.valueError) := by
  have hany : c.models.any
      (fun m => decide (DependentModel.identifier m = IdentRes.keyError)) = false := by
    rw [List.any_eq_false]
    intro m hm
    simpa using hok m hm
  refine ⟨rfl, ?_, ?_, ?_⟩
  · intro h
    simp [DependentModelCollection.call1, hany, h]
  · intro h
    simp [DependentModelCollection.call1, hany, h]
  · intro h
    have h1 : (c.models.filter
        (fun m => decide (DependentModel.identifier m = IdentRes.val (some v)))).length ≠ 1 := by
      omega
    simp [DependentModelCollection.call1, hany, h1, h]

/-- Witness for C9 at a collection whose lookup for `"a"` is ambiguous. -/
theorem C9_dependent_collection_lookup_witness :
    (∀ m ∈ depColl.models, DependentModel.identifier m ≠ IdentRes.keyError) ∧
    (DependentModelCollection.inflate depColl 0
        = ({ depColl with is_inflated := true }, 0) ∧
    ((depColl.models.filter
        (fun m => decide (DependentModel.identifier m = IdentRes.val (some "a")))).length = 1 →
      DependentModelCollection.call1 depColl "a" = Except.ok
        (depColl.models.filter
          (fun m => decide (DependentModel.identifier m = IdentRes.val (some "a")))).head?) ∧
    ((depColl.models.filter
        (fun m => decide (DependentModel.identifier m = IdentRes.val (some "a")))).length = 0 →
      DependentModelCollection.call1 depColl "a" = Except.ok none) ∧
    (1 < (depColl.models.filter
        (fun m => decide (DependentModel.identifier m = IdentRes.val (some "a")))).length →
      DependentModelCollection.call1 depColl "a" = Except.error PyErr.valueError)) :=
  ⟨by decide, C9_dependent_collection_lookup depColl "a" 0 (by decide)⟩

/-- An inflated `inflate` is the identity and makes no gateway call. -/
theorem inflate_of_inflated (fetch : Fetch) (s : QModel) (calls : Nat)
    (h : s.is_inflated = true) :
    QueryableModel.inflate fetch s calls = Except.ok (s, calls) := by
  simp [QueryableModel.inflate, h]

/-- A successful `inflate` leaves the model inflated; it is the identity
when the model was already inflated and costs exactly one gateway call
otherwise. -/
theorem inflate_ok_state (fetch : Fetch) (s : QModel) (calls : Nat) (s1 : QModel)
    (c1 : Nat) (h : QueryableModel.inflate fetch s calls = Except.ok (s1, c1)) :
    s1.is_inflated = true ∧
    (s.is_inflated = true → s1 = s ∧ c1 = calls) ∧
    (s.is_inflated = false → c1 = calls + 1) := by
  unfold QueryableModel.inflate at h
  split at h
  · rename_i hi
    simp at h
    obtain ⟨rfl, rfl⟩ := h
    exact ⟨hi, fun _ => ⟨rfl, rfl⟩, fun hff => by rw [hff] at hi; cases hi⟩
  · rename_i hi
    split at h
    · simp at h
    · dsimp only at h
      split at h
      · simp at h
      · split at h
        · simp at h
        · simp at h
          obtain ⟨rfl, rfl⟩ := h
          refine ⟨rfl, ?_, fun _ => rfl⟩
          intro htt
          exact absurd htt hi

/-- A failed `inflate` never marks the model inflated, never touches the
attribute bag or the async-job reference, and the guard / address errors
are raised before any gateway call. -/
theorem inflate_error_state (fetch : Fetch) (s : QModel) (calls : Nat) (e : PyErr)
    (s1 : QModel) (c1 : Nat)
    (h : QueryableModel.inflate fetch s calls = Except.error (e, s1, c1)) :
    s1.is_inflated = s.is_inflated ∧ s1.request = s.request ∧
    s1.data = s.data ∧
    (e = PyErr.insufficientData → c1 = calls) := by
  unfold QueryableModel.inflate at h
  split at h
  · simp at h
  · split at h
    · simp at h
      obtain ⟨rfl, rfl, rfl⟩ := h
      exact ⟨rfl, rfl, rfl, fun _ => rfl⟩
    · dsimp only at h
      split at h
      · simp at h
        obtain ⟨rfl, rfl, rfl⟩ := h
        exact ⟨rfl, rfl, rfl, fun _ => rfl⟩
      · split at h
        · rename_i u hu fe hf
          simp at h
          obtain ⟨rfl, rfl, rfl⟩ := h
          refine ⟨rfl, rfl, rfl, fun hins => ?_⟩
          cases fe <;> simp [FetchErr.toPyErr] at hins
        · simp at h

/-- The `url` property (read mid-inflation) raises the guard error
exactly when there is neither a direct `href` nor a primary-key value in
the attribute bag. -/
theorem urlOf_insufficient_iff (s : QModel) (pk : String)
    (hpk : s.primary_key = some pk) :
    (QueryableModel.urlOf s = Except.error PyErr.insufficientData)
      ↔ (s.href = none ∧ dictGet s.data pk = none) := by
  unfold QueryableModel.urlOf
  rw [hpk]
  cases hh : s.href with
  | some h0 => simp [hh]
  | none =>
    cases hd : dictGet s.data pk with
    | some v => by_cases hv : pyStr v = "" <;> simp [hd, hv]
    | none => simp [hd]

/-- A fresh (uninflated, not mid-inflation) `inflate` raises the guard
error exactly when the model has neither a direct address nor a
primary-key value from which to derive one. -/
theorem inflate_insufficient_iff (fetch : Fetch) (s : QModel) (calls : Nat)
    (pk : String) (hpk : s.primary_key = some pk) (hi : s.is_inflated = false)
    (hg : s.is_inflating = false) :
    (∃ s1 c1, QueryableModel.inflate fetch s calls
        = Except.error (PyErr.insufficientData, s1, c1))
      ↔ (s.href = none ∧ dictGet s.data pk = none) := by
  have hurl := urlOf_insufficient_iff
    { s with is_inflated := false, is_inflating := true } pk hpk
  constructor
  · rintro ⟨s1, c1, h⟩
    unfold QueryableModel.inflate at h
    rw [hi, hg] at h
    simp only [Bool.false_eq_true, if_false] at h
    split at h
    · rename_i e hu
      simp at h
      obtain ⟨rfl, rfl, rfl⟩ := h
      exact hurl.mp hu
    · split at h
      · rename_i u hu fe hf
        simp at h
        obtain ⟨he, rfl, rfl⟩ := h
        cases fe <;> simp [FetchErr.toPyErr] at he
      · simp at h
  · rintro ⟨h1, h2⟩
    have hu : QueryableModel.urlOf { s with is_inflated := false, is_inflating := true }
        = Except.error PyErr.insufficientData := hurl.mpr ⟨h1, h2⟩
    refine ⟨{ s with is_inflated := false, is_inflating := true }, calls, ?_⟩
    unfold QueryableModel.inflate
    rw [hi, hg]
    simp only [Bool.false_eq_true, if_false]
    rw [hu]

/-- C4: inflation is idempotent — `inflate()` on an already inflated model
is a no-op issuing no gateway call and leaving the state (in particular
the attribute bag) unchanged, so two consecutive `inflate()` calls issue
at most one gateway call; `refresh()` resets the inflation state and any
successful refresh performs exactly one re-fetch through the gateway. -/
theorem C4_inflate_idempotent (fetch : Fetch) (s : QModel) (calls : Nat) :
    (s.is_inflated = true → QueryableModel.inflate fetch s calls = Except.ok (s, calls)) ∧
    (∀ s1 c1, QueryableModel.inflate fetch s calls = Except.ok (s1, c1) →
      QueryableModel.inflate fetch s1 c1 = Except.ok (s1, c1) ∧ c1 ≤ calls + 1) ∧
    (∀ s1 c1, Model.refresh fetch s calls = Except.ok (s1, c1) → c1 = calls + 1) := by
  refine ⟨fun h => inflate_of_inflated fetch s calls h, ?_, ?_⟩
  · intro s1 c1 h
    obtain ⟨h1, h2, h3⟩ := inflate_ok_state fetch s calls s1 c1 h
    refine ⟨inflate_of_inflated fetch s1 c1 h1, ?_⟩
    cases hi : s.is_inflated with
    | true => obtain ⟨_, rfl⟩ := h2 hi; omega
    | false => rw [h3 hi]
  · intro s1 c1 h
    exact (inflate_ok_state fetch { s with is_inflated := false } calls s1 c1 h).2.2 rfl

/-- Witness for C4 at an already inflated model. -/
theorem C4_inflate_idempotent_witness :
    QueryableModel.inflate okFetch { modelEx with is_inflated := true } 0
      = Except.ok ({ modelEx with is_inflated := true }, 0) :=
  (C4_inflate_idempotent okFetch { modelEx with is_inflated := true } 0).1 rfl

/-- C5: invoking `inflate()` while the model is already in the inflating
state fails immediately with the guard's `ClientError`
(`InsufficientAddressError`) without a gateway call, the model is never
marked inflated by a failing inflation, the guard costs no gateway call,
and — on a fresh call — the re-entrant attempt arises exactly when the
model has neither a direct address nor a primary-key value from which to
derive one. -/
theorem C5_reentrancy_guard (fetch : Fetch) (s : QModel) (calls : Nat) (pk : String)
    (hpk : s.primary_key = some pk) (hni : s.is_inflated = false) :
    (s.is_inflating = true →
      QueryableModel.inflate fetch s calls
        = Except.error (PyErr.insufficientData, s, calls)) ∧
    (∀ e s1 c1, QueryableModel.inflate fetch s calls = Except.error (e, s1, c1) →
      s1.is_inflated = false) ∧
    (∀ s1 c1, QueryableModel.inflate fetch s calls
        = Except.error (PyErr.insufficientData, s1, c1) → c1 = calls) ∧
    (s.is_inflating = false →
      ((∃ s1 c1, QueryableModel.inflate fetch s calls
          = Except.error (PyErr.insufficientData, s1, c1))
        ↔ (s.href = none ∧ dictGet s.data pk = none))) := by
  refine ⟨?_, ?_, ?_, ?_⟩
  · intro hg
    unfold QueryableModel.inflate
    rw [hni, hg]
    simp
  · intro e s1 c1 h
    exact ((inflate_error_state fetch s calls e s1 c1 h).1).trans hni
  · intro s1 c1 h
    exact (inflate_error_state fetch s calls _ s1 c1 h).2.2.2 rfl
  · intro hg
    exact inflate_insufficient_iff fetch s calls pk hpk hni hg

/-- Witness for C5 at a model with no address and no primary-key value. -/
theorem C5_reentrancy_guard_witness :
    guardEx.primary_key = some "cluster_name" ∧ guardEx.is_inflated = false ∧
    guardEx.is_inflating = false ∧
    ((∃ s1 c1, QueryableModel.inflate okFetch guardEx 0
        = Except.error (PyErr.insufficientData, s1, c1))
      ↔ (guardEx.href = none ∧ dictGet guardEx.data "cluster_name" = none)) :=
  ⟨rfl, rfl, rfl,
    (C5_reentrancy_guard okFetch guardEx 0 "cluster_name" rfl rfl).2.2.2 rfl⟩

/-- C7: accessing a declared field whose value is in the attribute bag
returns it with no gateway call and no state change; accessing a declared
field absent from the bag triggers inflation — exactly one gateway call
when the model was uninflated — and returns the possibly still-missing
value from the refreshed bag. -/
theorem C7_field_access (fetch : Fetch) (s : QModel) (calls : Nat) (attr : String)
    (hfld : attr ∈ s.fields) (hrel : attr ∉ s.relationships) :
    (∀ v, dictGet s.data attr = some v →
      Model.getattr fetch s calls attr
        = Except.ok (AttrVal.field (some v), s, calls)) ∧
    (dictGet s.data attr = none →
      ∀ r s1 c1, Model.getattr fetch s calls attr = Except.ok (r, s1, c1) →
        QueryableModel.inflate fetch s calls = Except.ok (s1, c1) ∧
        r = AttrVal.field (dictGet s1.data attr) ∧
        (s.is_inflated = false → c1 = calls + 1)) := by
  constructor
  · intro v hv
    unfold Model.getattr
    rw [if_neg hrel, if_pos hfld]
    simp [hv]
  · intro hn r s1 c1 h
    unfold Model.getattr at h
    rw [if_neg hrel, if_pos hfld, hn] at h
    simp at h
    cases hinf : QueryableModel.inflate fetch s calls with
    | error e => rw [hinf] at h; simp at h
    | ok p =>
      obtain ⟨s2, c2⟩ := p
      rw [hinf] at h
      simp at h
      obtain ⟨hr, rfl, rfl⟩ := h
      refine ⟨rfl, hr.symm, ?_⟩
      intro hun
      exact (inflate_ok_state fetch s calls s2 c2 hinf).2.2 hun

/-- Witness for C7 at an uninflated model whose bag holds the field. -/
theorem C7_field_access_witness :
    ("cluster_name" ∈ modelEx.fields) ∧ ("cluster_name" ∉ modelEx.relationships) ∧
    Model.getattr okFetch modelEx 0 "cluster_name"
      = Except.ok (AttrVal.field (some (JVal.str "c1")), modelEx, 0) :=
  ⟨by decide, by decide,
    (C7_field_access okFetch modelEx 0 "cluster_name" (by decide) (by decide)).1
      (JVal.str "c1") rfl⟩

/-- Characterisation of the poll loop started at `n` refreshes and time
`n * interval`: it terminates given enough fuel, a `Failed` result marks
the first polled index whose failure predicate holds before the deadline,
a returned entity marks the first polled index whose completion predicate
holds, and a `Timeout` carries the configured timeout and implies neither
predicate held at any polled index. -/
theorem waitLoop_characterisation (hf isf : Nat → Bool) (iv tmo : Nat) (hiv : 0 < iv) :
    ∀ fuel n, tmo ≤ n * iv + fuel * iv →
      (∀ j, j < n → hf j = false ∧ isf j = false) →
      ((∃ r, waitLoop hf isf iv tmo fuel (n * iv) n = some r) ∧
      (∀ k, waitLoop hf isf iv tmo fuel (n * iv) n = some (WaitResult.failed k) →
        hf k = true ∧ k * iv < tmo ∧ ∀ j, j < k → hf j = false ∧ isf j = false) ∧
      (∀ k, waitLoop hf isf iv tmo fuel (n * iv) n = some (WaitResult.finished k) →
        hf k = false ∧ isf k = true ∧ k * iv < tmo ∧
          ∀ j, j < k → hf j = false ∧ isf j = false) ∧
      (∀ t, waitLoop hf isf iv tmo fuel (n * iv) n = some (WaitResult.timeout t) →
        t = tmo ∧ ∀ k, k * iv < tmo → hf k = false ∧ isf k = false)) := by
  intro fuel
  induction fuel with
  | zero =>
    intro n htm hist
    simp only [Nat.zero_mul, Nat.add_zero] at htm
    have hnl : ¬ (n * iv < tmo) := not_lt.mpr htm
    have hw : waitLoop hf isf iv tmo 0 (n * iv) n = some (WaitResult.timeout tmo) := by
      simp [waitLoop, hnl]
    refine ⟨⟨_, hw⟩, ?_, ?_, ?_⟩
    · intro k hk
      rw [hw] at hk
      simp at hk
    · intro k hk
      rw [hw] at hk
      simp at hk
    · intro t ht
      rw [hw] at ht
      simp at ht
      subst ht
      refine ⟨rfl, ?_⟩
      intro k hk
      have hkn : k < n :=
        lt_of_mul_lt_mul_right (lt_of_lt_of_le hk htm) (Nat.zero_le iv)
      exact hist k hkn
  | succ f ih =>
    intro n htm hist
    by_cases hlt : n * iv < tmo
    · cases hhf : hf n with
      | true =>
        have hw : waitLoop hf isf iv tmo (f + 1) (n * iv) n
            = some (WaitResult.failed n) := by
          simp [waitLoop, hlt, hhf]
        refine ⟨⟨_, hw⟩, ?_, ?_, ?_⟩
        · intro k hk
          rw [hw] at hk
          simp at hk
          subst hk
          exact ⟨hhf, hlt, fun j hj => hist j hj⟩
        · intro k hk
          rw [hw] at hk
          simp at hk
        · intro t ht
          rw [hw] at ht
          simp at ht
      | false =>
        cases hisf : isf n with
        | true =>
          have hw : waitLoop hf isf iv tmo (f + 1) (n * iv) n
              = some (WaitResult.finished n) := by
            simp [waitLoop, hlt, hhf, hisf]
          refine ⟨⟨_, hw⟩, ?_, ?_, ?_⟩
          · intro k hk
            rw [hw] at hk
            simp at hk
          · intro k hk
            rw [hw] at hk
            simp at hk
            subst hk
            exact ⟨hhf, hisf, hlt, fun j hj => hist j hj⟩
          · intro t ht
            rw [hw] at ht
            simp at ht
        | false =>
          have heq : n * iv + iv = (n + 1) * iv := by ring
          have hw : waitLoop hf isf iv tmo (f + 1) (n * iv) n
              = waitLoop hf isf iv tmo f ((n + 1) * iv) (n + 1) := by
            simp [waitLoop, hlt, hhf, hisf, heq]
          have htm2 : tmo ≤ (n + 1) * iv + f * iv := by
            have h0 : n * iv + (f + 1) * iv = (n + 1) * iv + f * iv := by ring
            linarith [htm, h0]
          have hist2 : ∀ j, j < n + 1 → hf j = false ∧ isf j = false := by
            intro j hj
            rcases Nat.lt_succ_iff_lt_or_eq.mp hj with h | h
            · exact hist j h
            · subst h
              exact ⟨hhf, hisf⟩
          obtain ⟨hex, hfl, hfin, hto⟩ := ih (n + 1) htm2 hist2
          rw [hw]
          exact ⟨hex, hfl, hfin, hto⟩
    · have hle : tmo ≤ n * iv := le_of_not_lt hlt
      have hw : waitLoop hf isf iv tmo (f + 1) (n * iv) n
          = some (WaitResult.timeout tmo) := by
        simp [waitLoop, hlt]
      refine ⟨⟨_, hw⟩, ?_, ?_, ?_⟩
      · intro k hk
        rw [hw] at hk
        simp at hk
      · intro k hk
        rw [hw] at hk
        simp at hk
      · intro t ht
        rw [hw] at ht
        simp at ht
        subst ht
        refine ⟨rfl, ?_⟩
        intro k hk
        have hkn : k < n :=
          lt_of_mul_lt_mul_right (lt_of_lt_of_le hk hle) (Nat.zero_le iv)
        exact hist k hkn

/-- C1: `wait(interval, timeout)` polls with deadline `now + timeout`:
given enough fuel the loop settles; a `Failed` error is raised at the
first polled index (before the deadline) whose failure predicate holds
and only after exactly that many progress/sleep/refresh cycles; the
entity is returned at the first polled index whose completion predicate
holds (failure checked first); a `Timeout` error carries the configured
timeout and occurs only if neither predicate held at any index polled
before the deadline — in particular a run whose failure predicate becomes
true at a polled index before the deadline never raises the timeout
error. -/
theorem C1_wait_poll_loop (hf isf : Nat → Bool) (di dt iv tmo fuel : Nat)
    (hiv : 0 < iv) (htm : 0 < tmo) (hfuel : tmo ≤ fuel * iv) :
    (∃ r, PollableMixin.wait hf isf di dt (some iv) (some tmo) fuel = some r) ∧
    (∀ k, PollableMixin.wait hf isf di dt (some iv) (some tmo) fuel
        = some (WaitResult.failed k) →
      hf k = true ∧ k * iv < tmo ∧ ∀ j, j < k → hf j = false ∧ isf j = false) ∧
    (∀ k, PollableMixin.wait hf isf di dt (some iv) (some tmo) fuel
        = some (WaitResult.finished k) →
      hf k = false ∧ isf k = true ∧ k * iv < tmo ∧
        ∀ j, j < k → hf j = false ∧ isf j = false) ∧
    (∀ t, PollableMixin.wait hf isf di dt (some iv) (some tmo) fuel
        = some (WaitResult.timeout t) →
      t = tmo ∧ ∀ k, k * iv < tmo → hf k = false ∧ isf k = false) ∧
    (∀ k, k * iv < tmo → hf k = true →
      ∀ t, PollableMixin.wait hf isf di dt (some iv) (some tmo) fuel
          ≠ some (WaitResult.timeout t)) := by
  have hivne : iv ≠ 0 := Nat.pos_iff_ne_zero.mp hiv
  have htmne : tmo ≠ 0 := Nat.pos_iff_ne_zero.mp htm
  have hwdef : PollableMixin.wait hf isf di dt (some iv) (some tmo) fuel
      = waitLoop hf isf iv tmo fuel (0 * iv) 0 := by
    simp [PollableMixin.wait, resolveDefault, hivne, htmne]
  obtain ⟨hex, hfl, hfin, hto⟩ :=
    waitLoop_characterisation hf isf iv tmo hiv fuel 0 (by simpa using hfuel)
      (fun j hj => absurd hj (Nat.not_lt_zero j))
  rw [hwdef]
  refine ⟨hex, hfl, hfin, hto, ?_⟩
  intro k hk hfk t hcontra
  obtain ⟨_, hall⟩ := hto t hcontra
  have hfalse := (hall k hk).1
  rw [hfk] at hfalse
  cases hfalse

/-- Witness for C1: interval 1, timeout 5, the failure predicate becomes
true at the third poll. -/
theorem C1_wait_poll_loop_witness :
    (0 : Nat) < 1 ∧ (0 : Nat) < 5 ∧ (5 : Nat) ≤ 5 * 1 ∧
    ((∃ r, PollableMixin.wait (fun k => decide (k = 2)) (fun _ => false) 15 3600
        (some 1) (some 5) 5 = some r) ∧
    (∀ k, PollableMixin.wait (fun k => decide (k = 2)) (fun _ => false) 15 3600
        (some 1) (some 5) 5 = some (WaitResult.failed k) →
      decide (k = 2) = true ∧ k * 1 < 5 ∧
        ∀ j, j < k → decide (j = 2) = false ∧ (fun _ => false) j = false) ∧
    (∀ k, PollableMixin.wait (fun k => decide (k = 2)) (fun _ => false) 15 3600
        (some 1) (some 5) 5 = some (WaitResult.finished k) →
      decide (k = 2) = false ∧ (fun _ => false) k = true ∧ k * 1 < 5 ∧
        ∀ j, j < k → decide (j = 2) = false ∧ (fun _ => false) j = false) ∧
    (∀ t, PollableMixin.wait (fun k => decide (k = 2)) (fun _ => false) 15 3600
        (some 1) (some 5) 5 = some (WaitResult.timeout t) →
      t = 5 ∧ ∀ k, k * 1 < 5 → decide (k = 2) = false ∧ (fun _ => false) k = false) ∧
    (∀ k, k * 1 < 5 → decide (k = 2) = true →
      ∀ t, PollableMixin.wait (fun k => decide (k = 2)) (fun _ => false) 15 3600
          (some 1) (some 5) 5 ≠ some (WaitResult.timeout t))) :=
  ⟨by decide, by decide, by decide,
    C1_wait_poll_loop (fun k => decide (k = 2)) (fun _ => false) 15 3600 1 5 5
      (by decide) (by decide) (by decide)⟩

/-- `load` leaves the async-job reference alone when the response has no
`Requests` section. -/
theorem load_request_of_none (s : QModel) (resp : JObj)
    (h : dictGet resp "Requests" = none) :
    (QueryableModel.load s resp).request = s.request := by
  unfold QueryableModel.load
  rw [h]
  simp only [Option.isSome_none, Bool.false_and, Bool.false_eq_true, if_false]
  split <;> (try split) <;> (cases dictGet resp "href" <;> rfl)

/-- `load` either keeps the async-job reference or installs a new one; it
never clears an existing reference. -/
theorem load_request_cases (s : QModel) (resp : JObj) :
    (QueryableModel.load s resp).request = s.request ∨
    ∃ r, (QueryableModel.load s resp).request = some r := by
  unfold QueryableModel.load
  split
  · split
    · right; exact ⟨_, rfl⟩
    · right; exact ⟨_, rfl⟩
  · left
    dsimp only
    repeat' split
    all_goals rfl

/-- `load` preserves the presence of an async-job reference. -/
theorem load_request_isSome (s : QModel) (resp : JObj)
    (hs : s.request.isSome = true) :
    (QueryableModel.load s resp).request.isSome = true := by
  rcases load_request_cases s resp with h | ⟨r, h⟩ <;> rw [h]
  · exact hs
  · rfl

/-- A successful `inflate` preserves the presence of an async-job
reference. -/
theorem inflate_request_isSome (fetch : Fetch) (s : QModel) (calls : Nat)
    (s1 : QModel) (c1 : Nat)
    (h : QueryableModel.inflate fetch s calls = Except.ok (s1, c1))
    (hs : s.request.isSome = true) : s1.request.isSome = true := by
  unfold QueryableModel.inflate at h
  split at h
  · simp at h
    obtain ⟨rfl, rfl⟩ := h
    exact hs
  · split at h
    · simp at h
    · dsimp only at h
      split at h
      · simp at h
      · split at h
        · simp at h
        · rename_i u hu resp hf2
          simp at h
          obtain ⟨rfl, rfl⟩ := h
          exact load_request_isSome { s with is_inflating := true } resp hs

/-- When no response carries a `Requests` section, a successful `inflate`
leaves the async-job reference exactly as it was. -/
theorem inflate_request_eq (fetch : Fetch) (s : QModel) (calls : Nat)
    (s1 : QModel) (c1 : Nat)
    (hresp : ∀ k u resp, fetch k u = Except.ok resp → dictGet resp "Requests" = none)
    (h : QueryableModel.inflate fetch s calls = Except.ok (s1, c1)) :
    s1.request = s.request := by
  unfold QueryableModel.inflate at h
  split at h
  · simp at h
    obtain ⟨rfl, rfl⟩ := h
    rfl
  · split at h
    · simp at h
    · dsimp only at h
      split at h
      · simp at h
      · split at h
        · simp at h
        · rename_i resp hf2
          simp at h
          obtain ⟨rfl, rfl⟩ := h
          exact load_request_of_none { s with is_inflating := true } resp
            (hresp calls _ resp hf2)

/-- Collection `load` leaves the async-job reference alone when the
response has no `Requests` section. -/
theorem loadC_request_of_none (c : QCollection) (resp : JObj)
    (h : dictGet resp "Requests" = none) :
    (QueryableModelCollection.load c resp).request = c.request := by
  unfold QueryableModelCollection.load
  rw [h]
  dsimp only
  repeat' split
  all_goals rfl

/-- When no response carries a `Requests` section, a successful
collection `inflate` leaves the async-job reference as it was. -/
theorem inflateC_request_eq (fetch : Fetch) (c : QCollection) (calls : Nat)
    (c2 : QCollection) (n2 : Nat)
    (hresp : ∀ k u resp, fetch k u = Except.ok resp → dictGet resp "Requests" = none)
    (h : QueryableModelCollection.inflate fetch c calls = Except.ok (c2, n2)) :
    c2.request = c.request := by
  unfold QueryableModelCollection.inflate at h
  split at h
  · simp at h
    obtain ⟨rfl, rfl⟩ := h
    rfl
  · split at h
    · simp at h
    · rename_i resp hf2
      simp at h
      obtain ⟨rfl, rfl⟩ := h
      exact loadC_request_of_none c resp (hresp calls _ resp hf2)

/-- The not-found-tolerant retry loop of `Host.wait` preserves the
presence of an async-job reference. -/
theorem inflateRetry_request_isSome (fetch : Fetch) :
    ∀ k (s : QModel) (calls : Nat) (s1 : QModel) (c1 : Nat),
      Host.inflateRetry fetch k s calls = Except.ok (s1, c1) →
      s.request.isSome = true → s1.request.isSome = true := by
  intro k
  induction k with
  | zero =>
    intro s calls s1 c1 h hs
    simp [Host.inflateRetry] at h
    obtain ⟨rfl, rfl⟩ := h
    exact hs
  | succ k ih =>
    intro s calls s1 c1 h hs
    unfold Host.inflateRetry at h
    split at h
    · rename_i s2 c2 hinf
      exact ih _ _ _ _ h (inflate_request_isSome fetch s calls s2 c2 hinf hs)
    · rename_i s2 c2 hinf
      split at h
      · simp at h
      · have h2 : s2.request = s.request :=
          (inflate_error_state fetch s calls PyErr.notFound s2 c2 hinf).2.1
        refine ih _ _ _ _ h ?_
        show s2.request.isSome = true
        rw [h2]
        exact hs
    · simp at h

/-- C3 (amended): `QueryableModel.wait` and `QueryableModelCollection.wait`
first drive the linked job's `wait` to completion, clear the reference,
and only then perform the entity's own completion step (`inflate`) — so
when the re-fetch attaches no new job the reference is gone afterwards;
`Host.wait` also drives the linked job's `wait` before its own inflation
retries and poll loop, but does not clear the reference. -/
theorem C3_wait_drives_job_first (reqWait : ReqWait) (fetch : Fetch) (s : QModel)
    (c : QCollection) (isf : Nat → Bool) (interval timeout : Option Nat)
    (fuel calls : Nat) :
    (∀ r, s.request = some r → reqWait r = none →
      ∀ tr s2 c2, QueryableModel.wait reqWait fetch s calls = Except.ok (tr, s2, c2) →
        tr = [Act.requestWait r, Act.inflateCall] ∧
        QueryableModel.inflate fetch { s with request := none } calls
          = Except.ok (s2, c2) ∧
        ((∀ k u resp, fetch k u = Except.ok resp → dictGet resp "Requests" = none) →
          s2.request = none)) ∧
    (∀ r, c.request = some r → reqWait r = none →
      ∀ tr cc2 n2, QueryableModelCollection.wait reqWait fetch c calls
          = Except.ok (tr, cc2, n2) →
        tr = [Act.requestWait r, Act.inflateCall] ∧
        QueryableModelCollection.inflate fetch { c with request := none } calls
          = Except.ok (cc2, n2) ∧
        ((∀ k u resp, fetch k u = Except.ok resp → dictGet resp "Requests" = none) →
          cc2.request = none)) ∧
    (∀ r, s.request = some r → reqWait r = none →
      ∀ tr w s2 c2, Host.wait reqWait fetch isf interval timeout fuel s calls
          = Except.ok (some (tr, w, s2, c2)) →
        tr.head? = some (Act.requestWait r) ∧ s2.request.isSome = true) := by
  refine ⟨?_, ?_, ?_⟩
  · intro r hr hw tr s2 c2 h
    unfold QueryableModel.wait at h
    simp only [hr, hw] at h
    cases hinf : QueryableModel.inflate fetch { s with request := none } calls with
    | error e =>
      rw [hinf] at h
      simp at h
    | ok p =>
      obtain ⟨s3, c3⟩ := p
      rw [hinf] at h
      simp at h
      obtain ⟨htr, rfl, rfl⟩ := h
      refine ⟨htr.symm, rfl, ?_⟩
      intro hresp
      have he := inflate_request_eq fetch { s with request := none } calls s3 c3 hresp hinf
      rw [he]
  · intro r hr hw tr cc2 n2 h
    unfold QueryableModelCollection.wait at h
    simp only [hr, hw] at h
    cases hinf : QueryableModelCollection.inflate fetch { c with request := none } calls with
    | error e =>
      rw [hinf] at h
      simp at h
    | ok p =>
      obtain ⟨c3, n3⟩ := p
      rw [hinf] at h
      simp at h
      obtain ⟨htr, rfl, rfl⟩ := h
      refine ⟨htr.symm, rfl, ?_⟩
      intro hresp
      have he := inflateC_request_eq fetch { c with request := none } calls c3 n3 hresp hinf
      rw [he]
  · intro r hr hw tr w s2 c2 h
    unfold Host.wait at h
    simp only [hr, hw] at h
    cases hrt : Host.inflateRetry fetch 6 s calls with
    | error e =>
      rw [hrt] at h
      simp at h
    | ok p =>
      obtain ⟨s1, c1⟩ := p
      rw [hrt] at h
      cases hwl : waitLoop (fun _ => false) isf
          (resolveDefault interval Host.default_interval)
          (resolveDefault timeout Host.default_timeout) fuel 0 0 with
      | none =>
        rw [hwl] at h
        simp at h
      | some wr =>
        rw [hwl] at h
        cases wr with
        | failed k => simp at h
        | timeout t => simp at h
        | finished k =>
          simp at h
          obtain ⟨htr, hww, rfl, rfl⟩ := h
          constructor
          · rw [← htr]
            rfl
          · exact inflateRetry_request_isSome fetch 6 s calls s1 c1 hrt
              (by rw [hr]; rfl)

/-- C3 (counterexample): a `Host` with a pending async-job reference,
whose job wait and re-fetch both complete normally, still holds the
reference after `wait()` returns — refuting "calling wait() ... then
clears the reference ... a completed wait leaves none" for every
entity. -/
theorem C3_host_wait_keeps_link :
    (match Host.wait (fun _ => none) okFetch (fun _ => true) none none 1 hostEx 0 with
      | Except.ok (some (_, _, s2, _)) => s2.request
      | _ => none) = some [("id", JVal.num 1)] := by
  rfl

/-- Witness for C3 at the concrete `Host` instance. -/
theorem C3_wait_drives_job_first_witness :
    hostEx.request = some [("id", JVal.num 1)] ∧
    ((fun _ => none : ReqWait) [("id", JVal.num 1)] = none) ∧
    (∀ tr w s2 c2,
      Host.wait (fun _ => none) okFetch (fun _ => true) none none 1 hostEx 0
          = Except.ok (some (tr, w, s2, c2)) →
        tr.head? = some (Act.requestWait [("id", JVal.num 1)]) ∧
        s2.request.isSome = true) :=
  ⟨rfl, rfl,
    (C3_wait_drives_job_first (fun _ => none) okFetch hostEx
      { base_url := "http://ambari:8080", parentUrl := none, path := "hosts"
      , modelPk := "host_name", modelDataKey := some "Hosts", modelFields := []
      , modelRelationships := [], models := [], request := none
      , is_inflated := false }
      (fun _ => true) none none 1 0).2.2 [("id", JVal.num 1)] rfl rfl⟩
